import Mathlib

/-!
Shallow embedding of the pushover client's configuration and message
subsystem (src/pushover/config.py, src/pushover/messages.py and the
message-building helper in src/pushover/__init__.py), together with
theorems checking the natural-language specification against it.

Python values that flow through the option system are modelled by the
`Value` universe below; Python exceptions by `PyError`.  Instances of
`PushoverOptionSet` are modelled as association lists from field names to
stored values; the class-level schema (the `PushoverOption` descriptors in
definition order, as returned by `list_options`) is a `Schema`.
-/

namespace Pushover

/-- The five pushover priority levels (messages.py: PRIORITY_LOWEST .. PRIORITY_EMERGENCY). -/
inductive Priority
  | lowest
  | low
  | normal
  | high
  | emergency
deriving DecidableEq, Repr

/-- The `intval` of a `PushoverPriority` (messages.py:25-29). -/
def Priority.intval : Priority → Int
  | .lowest => -2
  | .low => -1
  | .normal => 0
  | .high => 1
  | .emergency => 2

/-- The `strval` of a `PushoverPriority` (messages.py:25-29). -/
def Priority.strval : Priority → String
  | .lowest => "lowest"
  | .low => "low"
  | .normal => "normal"
  | .high => "high"
  | .emergency => "emergency"

/-- The Python values that flow through the option system: `None`, strings,
integers, `PushoverPriority` objects and `datetime.datetime` objects (a
datetime is identified by the POSIX timestamp it denotes). -/
inductive Value
  | vNone
  | vStr (s : String)
  | vInt (n : Int)
  | vPrio (p : Priority)
  | vDatetime (epoch : Int)
deriving DecidableEq, Repr

open Value

/-- Python exceptions raised by the embedded code. -/
inductive PyError
  | valueError (msg : String)
  | typeError (msg : String)
  | nameError (missing : String)
  | attributeError (msg : String)
deriving DecidableEq, Repr

/-- Python truthiness of a `Value` (`bool(v)`): `None`, the empty string and
the integer 0 are falsy; `PushoverPriority` and `datetime` objects define
neither `__bool__` nor `__len__` and are always truthy. -/
def Value.truthy : Value → Bool
  | vNone => false
  | vStr s => !s.isEmpty
  | vInt n => n != 0
  | vPrio _ => true
  | vDatetime _ => true

/-- Decimal digits of a natural number, most significant first, with
explicit fuel so that the definition is structurally recursive (any fuel
with `n < 10 ^ fuel` yields all the digits). -/
def natDecimalGo : Nat → Nat → List Char
  | 0, _ => []
  | fuel + 1, n =>
      if n < 10 then [Nat.digitChar n]
      else natDecimalGo fuel (n / 10) ++ [Nat.digitChar (n % 10)]

/-- Decimal digits of a natural number, most significant first (the
rendering Python's `str(int)` produces). -/
def natDecimalAux (n : Nat) : List Char :=
  natDecimalGo (n + 1) n

/-- Python's decimal rendering `str(n)` of an integer. -/
def intDecimal : Int → String
  | .ofNat m => ⟨natDecimalAux m⟩
  | .negSucc m => "-" ++ (⟨natDecimalAux (m + 1)⟩ : String)

/-- Python `str(v)` on the modelled values.  `str` of a `PushoverPriority`
is its `strval` (messages.py:16-17); the rendering of a datetime keeps
only the timestamp (it never collides with a priority name or an integer
literal, which is all the embedded code depends on). -/
def pyStr : Value → String
  | vNone => "None"
  | vStr s => s
  | vInt n => intDecimal n
  | vPrio p => p.strval
  | vDatetime e => "datetime " ++ intDecimal e

/-- ASCII whitespace stripped by Python's `int(str)` conversion. -/
def isPySpace (c : Char) : Bool :=
  c = ' ' || c = '\t' || c = '\n' || c = '\r' || c = '\x0b' || c = '\x0c'

/-- Parse a nonempty digit run in which single underscores may separate
digits, as accepted by Python's `int(str)` after the optional sign. -/
def pyDigitsGo (acc : Nat) : List Char → Option Nat
  | [] => some acc
  | '_' :: c :: rest =>
      if c.isDigit then pyDigitsGo (acc * 10 + (c.toNat - 48)) rest else none
  | c :: rest =>
      if c.isDigit then pyDigitsGo (acc * 10 + (c.toNat - 48)) rest else none

/-- Digit-run parser entry point: requires a leading digit. -/
def pyDigits : List Char → Option Nat
  | [] => none
  | c :: rest =>
      if c.isDigit then pyDigitsGo (c.toNat - 48) rest else none

/-- Strip leading and trailing whitespace from a character list. -/
def stripChars (l : List Char) : List Char :=
  ((l.dropWhile isPySpace).reverse.dropWhile isPySpace).reverse

/-- Python `int(s)` for a string `s`: optional surrounding whitespace, an
optional sign, then digits with optional single underscores between them.
`none` models the `ValueError` CPython raises otherwise. -/
def pyIntParse (s : String) : Option Int :=
  match stripChars s.data with
  | '+' :: rest => (pyDigits rest).map Int.ofNat
  | '-' :: rest => (pyDigits rest).map (fun n => -(n : Int))
  | l => (pyDigits l).map Int.ofNat

/-- Python `int(v)`: identity on ints, string parsing on strings (ValueError
on failure), `__int__` on priorities, TypeError on `None` and datetimes. -/
def pyInt : Value → Except PyError Int
  | vInt n => .ok n
  | vStr s =>
      match pyIntParse s with
      | some n => .ok n
      | none => .error (.valueError ("invalid literal for int: " ++ s))
  | vPrio p => .ok p.intval
  | vNone => .error (.typeError "int() argument must not be None")
  | vDatetime _ => .error (.typeError "int() argument must not be datetime")

/-- The tuple `PRIORITIES` (messages.py:31-37). -/
def PRIORITIES : List Priority :=
  [.emergency, .high, .normal, .low, .lowest]

/-- The dict `_str_to_priority_map` (messages.py:42-43), as a lookup. -/
def strToPriority (s : String) : Option Priority :=
  PRIORITIES.find? (fun p => p.strval == s)

/-- The dict `_int_to_priority_map` (messages.py:39-40), as a lookup. -/
def intToPriority (n : Int) : Option Priority :=
  PRIORITIES.find? (fun p => p.intval == n)

/-- `get_priority` (messages.py:48-61).  `value in PRIORITIES` holds exactly
for `PushoverPriority` values: `PushoverPriority.__eq__` compares both
`int()` and `str()` images and returns `NotImplemented` for operands
without `__int__` (strings, `None`, datetimes), while for ints the `str()`
images never agree.  Otherwise the string map is consulted with
`str(value)`, then the int map with `int(value)` (TypeError / ValueError /
KeyError all caught), and finally ValueError is raised. -/
def get_priority (value : Value) : Except PyError Value :=
  match value with
  | vPrio p => .ok (vPrio p)
  | v =>
      match strToPriority (pyStr v) with
      | some p => .ok (vPrio p)
      | none =>
          match pyInt v with
          | .ok n =>
              match intToPriority n with
              | some p => .ok (vPrio p)
              | none => .error (.valueError "invalid priority")
          | .error _ => .error (.valueError "invalid priority")

/-- `get_timestamp` (messages.py:64-74) as executed by this package.  The
package runs on Python 3 (src/pushover/__init__.py imports `http.client`
and `urllib.parse`), where the function's first expression
`isinstance(value, basestring)` evaluates the Python-2-only name
`basestring` and therefore raises `NameError` before looking at the value. -/
def get_timestamp (_ : Value) : Except PyError Value :=
  .error (.nameError "basestring")

/-- `get_timestamp` (messages.py:64-74) under the Python 2 semantics its
body was written for (`basestring` = string types, `long` = int): a digit
string is converted to an int, an int is converted to a datetime via
`utcfromtimestamp`, a datetime passes through, anything else raises
ValueError; the result is `value.strftime(&quot;%s&quot;)`, an epoch STRING
(the `%s`-of-a-naive-datetime timezone subtlety is not modelled: the
datetime is identified with its POSIX timestamp). -/
def get_timestamp_py2 (value : Value) : Except PyError Value :=
  let v :=
    match value with
    | vStr s =>
        if s.length > 0 && s.data.all Char.isDigit then
          match pyIntParse s with
          | some n => vInt n
          | none => vStr s
        else vStr s
    | other => other
  match v with
  | vDatetime e => .ok (vStr (intDecimal e))
  | vInt n => .ok (vStr (intDecimal n))
  | other => .error (.valueError ("invalid datetime " ++ pyStr other))

/-! ### The Option / OptionSet mechanism (config.py:67-230) -/

/-- A `PushoverOption` descriptor (config.py:67-134): default value,
required flag, and the optional serialize / deserialize callables.  In the
source `serialize` defaults to the builtin `str` and `deserialize` to
`None`; `to_dict` / `from_dict` apply a transform exactly when the
corresponding attribute is a truthy (present) callable, which the `Option`
wrapper captures. -/
structure PushoverOption where
  default : Value
  required : Bool
  serialize : Option (Value → Except PyError Value)
  deserialize : Option (Value → Except PyError Value)

/-- The default serializer: the builtin `str` (config.py:85). -/
def pyStrFn : Value → Except PyError Value :=
  fun v => .ok (vStr (pyStr v))

/-- Association-list lookup on string-keyed lists (models dict lookup /
instance attribute lookup). -/
def lookupA (l : List (String × Value)) (k : String) : Option Value :=
  match l with
  | [] => none
  | (k2, v) :: rest => if k2 = k then some v else lookupA rest k

/-- Store `k := v` in an association list, replacing an existing binding
(models `setattr` into the instance dict). -/
def setA (l : List (String × Value)) (k : String) (v : Value) :
    List (String × Value) :=
  match l with
  | [] => [(k, v)]
  | (k2, w) :: rest => if k2 = k then (k, v) :: rest else (k2, w) :: setA rest k v

/-- The class-level schema of a `PushoverOptionSet` subclass: the option
descriptors in the order returned by `list_options`. -/
structure Schema where
  fields : List (String × PushoverOption)

/-- The names returned by `list_options` (config.py:173-177). -/
def Schema.fieldNames (sc : Schema) : List String :=
  sc.fields.map Prod.fst

/-- Schema lookup of a descriptor (`_get_option`, config.py:179-181). -/
def Schema.getOption (sc : Schema) (k : String) : Option PushoverOption :=
  match sc.fields.find? (fun kv => kv.1 == k) with
  | some kv => some kv.2
  | none => none

/-- An instance of a `PushoverOptionSet` subclass: the explicitly stored
(already deserialized) per-field values, in storage order. -/
structure Inst where
  attrs : List (String × Value)
deriving DecidableEq, Repr

/-- `PushoverOption.__get__` via the instance (config.py:119-123): the
stored value if the field was explicitly set, else the descriptor's
default.  Only invoked on schema field names; a non-schema name resolves
to `vNone` here (the Python code never does that). -/
def Schema.getattr (sc : Schema) (inst : Inst) (k : String) : Value :=
  match lookupA inst.attrs k with
  | some v => v
  | none =>
      match sc.getOption k with
      | some o => o.default
      | none => vNone

/-- `is_set` (config.py:189-190). -/
def Schema.isSet (_ : Schema) (inst : Inst) (k : String) : Bool :=
  (lookupA inst.attrs k).isSome

/-- `is_required` (config.py:192-193). -/
def Schema.isRequired (sc : Schema) (k : String) : Bool :=
  match sc.getOption k with
  | some o => o.required
  | none => false

/-- `PushoverOption.__set__` (config.py:125-130): apply `deserialize` when
it is a callable, then store the result in the instance. -/
def Schema.setattr (sc : Schema) (inst : Inst) (k : String) (raw : Value) :
    Except PyError Inst :=
  match sc.getOption k with
  | some o =>
      match o.deserialize with
      | some f => (f raw).map (fun v => ⟨setA inst.attrs k v⟩)
      | none => .ok ⟨setA inst.attrs k raw⟩
  | none => .error (.attributeError k)

/-- The loop of `PushoverOptionSet.__init__` (config.py:156-163): each
keyword is stored via `setattr` when its name is a schema field, otherwise
TypeError is raised at that point. -/
def Schema.initFrom (sc : Schema) (inst : Inst)
    (kwargs : List (String × Value)) : Except PyError Inst :=
  match kwargs with
  | [] => .ok inst
  | (k, v) :: rest =>
      if sc.fieldNames.contains k then
        match sc.setattr inst k v with
        | .ok inst2 => sc.initFrom inst2 rest
        | .error e => .error e
      else
        .error (.typeError ("unexpected keyword argument " ++ k))

/-- `PushoverOptionSet(**kwargs)` for subclasses that keep the inherited
constructor (i.e. `PushoverPreset`). -/
def Schema.new (sc : Schema) (kwargs : List (String × Value)) :
    Except PyError Inst :=
  sc.initFrom ⟨[]⟩ kwargs

/-- `validate` (config.py:195-198): walk the fields in `list_options`
order and raise ValueError at the FIRST required field whose resolved
value is falsy. -/
def Schema.validateGo (sc : Schema) (inst : Inst) :
    List (String × PushoverOption) → Except PyError Unit
  | [] => .ok ()
  | (name, o) :: rest =>
      if o.required && !(sc.getattr inst name).truthy then
        .error (.valueError ("Empty required value " ++ name))
      else
        sc.validateGo inst rest

/-- `validate` (config.py:195-198). -/
def Schema.validate (sc : Schema) (inst : Inst) : Except PyError Unit :=
  sc.validateGo inst sc.fields

/-- The `args` dict built by `from_dict` (config.py:200-213): every key of
`data` is kept, with the field's deserializer applied when one is
configured. -/
def Schema.buildArgs (sc : Schema) (data : List (String × Value)) :
    Except PyError (List (String × Value)) :=
  match data with
  | [] => .ok []
  | (k, v) :: rest =>
      let step : Except PyError Value :=
        match sc.getOption k with
        | some o =>
            match o.deserialize with
            | some f => f v
            | none => .ok v
        | none => .ok v
      match step with
      | .ok v2 =>
          match sc.buildArgs rest with
          | .ok rest2 => .ok ((k, v2) :: rest2)
          | .error e => .error e
      | .error e => .error e

/-- `to_dict` (config.py:215-230), recursing over the field list: skip
fields whose resolved value is `None`, apply `serialize` when configured. -/
def Schema.toDictGo (sc : Schema) (inst : Inst) :
    List (String × PushoverOption) → Except PyError (List (String × Value))
  | [] => .ok []
  | (k, o) :: rest =>
      let value := sc.getattr inst k
      if value = vNone then
        sc.toDictGo inst rest
      else
        match o.serialize with
        | some f =>
            match f value with
            | .ok w =>
                match sc.toDictGo inst rest with
                | .ok d => .ok ((k, w) :: d)
                | .error e => .error e
            | .error e => .error e
        | none =>
            match sc.toDictGo inst rest with
            | .ok d => .ok ((k, value) :: d)
            | .error e => .error e

/-- `to_dict` (config.py:215-230). -/
def Schema.to_dict (sc : Schema) (inst : Inst) :
    Except PyError (List (String × Value)) :=
  sc.toDictGo inst sc.fields

/-! ### The concrete schemas: PushoverPreset and PushoverMessage -/

/-- `DEFAULT_URL` (config.py:137). -/
def DEFAULT_URL : String := "https://api.pushover.net/1/messages.json"

/-- The `PushoverPreset` schema (config.py:233-243): the four fields in
the explicit `list_options` order; `api_url` defaults to `DEFAULT_URL`,
`api_device` is not required, every serializer is the default `str` and no
field has a deserializer. -/
def presetSchema : Schema :=
  ⟨[("api_url", ⟨vStr DEFAULT_URL, true, some pyStrFn, none⟩),
    ("api_user", ⟨vNone, true, some pyStrFn, none⟩),
    ("api_token", ⟨vNone, true, some pyStrFn, none⟩),
    ("api_device", ⟨vNone, false, some pyStrFn, none⟩)]⟩

/-- The serializer of the `priority` field, `lambda p: int(p)`
(messages.py:89). -/
def serPriorityFn : Value → Except PyError Value :=
  fun p => (pyInt p).map vInt

/-- `value.strftime(&quot;%s&quot;)`: defined on datetimes only; on any
other value Python raises AttributeError. -/
def pyStrftimeS : Value → Except PyError Value
  | vDatetime e => .ok (vStr (intDecimal e))
  | _ => .error (.attributeError "strftime")

/-- The serializer of the `timestamp` field,
`lambda k: k.strftime(&quot;%s&quot;) if k else None` (messages.py:111). -/
def serTimestampFn : Value → Except PyError Value :=
  fun k => if k.truthy then pyStrftimeS k else .ok vNone

/-- The `PushoverMessage` schema (messages.py:84-112): the six option
descriptors in class-body definition order (the order of the class dict,
which the inherited `list_options` walks). -/
def messageSchema : Schema :=
  ⟨[("priority", ⟨vPrio .normal, true, some serPriorityFn, some get_priority⟩),
    ("message", ⟨vNone, true, some pyStrFn, none⟩),
    ("title", ⟨vNone, false, some pyStrFn, none⟩),
    ("url", ⟨vNone, false, some pyStrFn, none⟩),
    ("url_title", ⟨vNone, false, some pyStrFn, none⟩),
    ("timestamp", ⟨vNone, false, some serTimestampFn, some get_timestamp⟩)]⟩

/-- `PushoverPreset(**kwargs)`. -/
def presetNew (kwargs : List (String × Value)) : Except PyError Inst :=
  presetSchema.new kwargs

/-- `PushoverMessage.__init__` (messages.py:114-117): the positional
`message` argument is stored first, then the remaining keywords go through
the inherited constructor loop. -/
def messageNew (message : Value) (kwargs : List (String × Value)) :
    Except PyError Inst :=
  match messageSchema.setattr ⟨[]⟩ "message" message with
  | .ok inst => messageSchema.initFrom inst kwargs
  | .error e => .error e

/-- Remove the first binding of `k`, returning its value and the rest
(models keyword binding of the positional `message` parameter when
`from_dict` calls `cls(**args)`). -/
def extractKey (k : String) (l : List (String × Value)) :
    Option (Value × List (String × Value)) :=
  match l with
  | [] => none
  | (k2, v) :: rest =>
      if k2 = k then some (v, rest)
      else
        match extractKey k rest with
        | some (w, rest2) => some (w, (k2, v) :: rest2)
        | none => none

/-- `PushoverPreset.from_dict` (config.py:200-213). -/
def presetFromDict (data : List (String × Value)) : Except PyError Inst :=
  match presetSchema.buildArgs data with
  | .ok args => presetNew args
  | .error e => .error e

/-- `PushoverMessage.from_dict` (config.py:200-213 with
`cls = PushoverMessage`): the built `args` dict is passed as keywords to
`PushoverMessage.__init__`, so `args` must bind the positional `message`
parameter or the call raises TypeError. -/
def messageFromDict (data : List (String × Value)) : Except PyError Inst :=
  match messageSchema.buildArgs data with
  | .ok args =>
      match extractKey "message" args with
      | some (m, rest) => messageNew m rest
      | none => .error (.typeError "missing required argument message")
  | .error e => .error e

/-! ### prepare, the config store and message building -/

/-- `_config_param_map` (messages.py:77-81): preset field names to wire
parameter names. -/
def configParamMap (k : String) : Option String :=
  if k = "api_device" then some "device"
  else if k = "api_user" then some "user"
  else if k = "api_token" then some "token"
  else none

/-- The renaming generator inside `prepare` (messages.py:123-127): for
each entry of the preset's `to_dict`, skip `api_url` and otherwise rename
via `_config_param_map` (a name outside the map would raise KeyError). -/
def renameCfg (l : List (String × Value)) :
    Except PyError (List (String × Value)) :=
  match l with
  | [] => .ok []
  | (k, v) :: rest =>
      if k = "api_url" then renameCfg rest
      else
        match configParamMap k with
        | some k2 => (renameCfg rest).map (fun r => (k2, v) :: r)
        | none => .error (.valueError ("KeyError " ++ k))

/-- `dict.update`: fold the new entries into the base association list,
replacing existing bindings. -/
def updateA (base : List (String × Value)) (entries : List (String × Value)) :
    List (String × Value) :=
  match entries with
  | [] => base
  | (k, v) :: rest => updateA (setA base k v) rest

/-- `PushoverMessage.prepare` (messages.py:119-132): the message's
`to_dict`, updated with the preset's `to_dict` entries renamed to wire
names, with `api_url` excluded. -/
def prepare (msg preset : Inst) : Except PyError (List (String × Value)) :=
  match messageSchema.to_dict msg with
  | .error e => .error e
  | .ok params =>
      match presetSchema.to_dict preset with
      | .error e => .error e
      | .ok cfg =>
          match renameCfg cfg with
          | .error e => .error e
          | .ok renamed => .ok (updateA params renamed)

/-- The state of a `PushoverConfig` (config.py:253-314): the
`RawConfigParser` default section and the named sections, each an
association list of raw values.  Section and option names are kept in
insertion order, matching the `OrderedDict`-backed parser. -/
structure PushoverConfig where
  defaults : List (String × Value)
  sections : List (String × List (String × Value))
deriving Repr

/-- `get_defaults` (config.py:183-187): each schema field paired with its
descriptor default. -/
def Schema.get_defaults (sc : Schema) : List (String × Value) :=
  sc.fields.map (fun kv => (kv.1, kv.2.default))

/-- `PushoverConfig.__init__` (config.py:261-263): the parser's default
section is seeded with the preset schema's defaults. -/
def mkPushoverConfig : PushoverConfig :=
  ⟨presetSchema.get_defaults, []⟩

/-- Lookup of a named section (`has_section` / `_sections`). -/
def lookupSection (sections : List (String × List (String × Value)))
    (name : String) : Option (List (String × Value)) :=
  match sections with
  | [] => none
  | (n, sec) :: rest => if n = name then some sec else lookupSection rest name

/-- `RawConfigParser.get(section, option)` as used by `get_preset`: the
section's own value if present, else the default section's value (the
`vars` level is never passed). -/
def cpGet (defaults sec : List (String × Value)) (k : String) : Value :=
  match lookupA sec k with
  | some v => v
  | none =>
      match lookupA defaults k with
      | some v => v
      | none => vNone

/-- `RawConfigParser.options(section)`: the default section's keys
followed by the section's own keys that are not already defaults, in
insertion order (`d = defaults.copy(); d.update(section)`). -/
def cpOptions (defaults sec : List (String × Value)) : List String :=
  defaults.map Prod.fst
    ++ (sec.map Prod.fst).filter (fun k => !(defaults.map Prod.fst).contains k)

/-- `PushoverConfig.get_preset` (config.py:274-283): with no name, the
default section's raw values feed `from_dict`; with a name, the store must
contain that section (else ValueError) and the parser's merged view of it
feeds `from_dict`. -/
def PushoverConfig.get_preset (cfg : PushoverConfig) (name : Option String) :
    Except PyError Inst :=
  match name with
  | none => presetFromDict cfg.defaults
  | some n =>
      match lookupSection cfg.sections n with
      | some sec =>
          presetFromDict
            ((cpOptions cfg.defaults sec).map
              (fun k => (k, cpGet cfg.defaults sec k)))
      | none => .error (.valueError ("No preset " ++ n))

/-- Overlaying one raw map on another: the base keys keep their position
with overlay values winning, and overlay-only keys are appended.  This is
the merged raw map the specification describes. -/
def overlay (base over : List (String × Value)) : List (String × Value) :=
  base.map (fun kv =>
      (kv.1, match lookupA over kv.1 with
             | some v => v
             | none => kv.2))
    ++ over.filter (fun kv => !(base.map Prod.fst).contains kv.1)

/-- `&quot; &quot;.join(tokens)` (src/pushover/__init__.py:35; an empty or
missing token list joins to the empty string). -/
def joinTokens (tokens : List String) : String :=
  String.intercalate " " tokens

/-- Apply one command-line override: absent is a no-op, present goes
through the descriptor `setattr` (src/pushover/__init__.py:40-43). -/
def applyOverride (inst : Inst) (k : String) (vo : Option Value) :
    Except PyError Inst :=
  match vo with
  | some v => messageSchema.setattr inst k v
  | none => .ok inst

/-- `_get_message` (src/pushover/__init__.py:34-44): join the message
tokens with single spaces, raise ValueError when the result is the empty
string, otherwise build a `PushoverMessage` from it and apply the
overrides in `_arg_to_message_map` insertion order (url, url_title,
title, priority). -/
def getMessage (tokens : List String)
    (msg_url msg_url_title msg_title msg_priority : Option Value) :
    Except PyError Inst :=
  let content := joinTokens tokens
  if content.isEmpty then
    .error (.valueError "no message to send")
  else
    match messageNew (vStr content) [] with
    | .error e => .error e
    | .ok m =>
        match applyOverride m "url" msg_url with
        | .error e => .error e
        | .ok m =>
            match applyOverride m "url_title" msg_url_title with
            | .error e => .error e
            | .ok m =>
                match applyOverride m "title" msg_title with
                | .error e => .error e
                | .ok m => applyOverride m "priority" msg_priority

/-! ### Helper lemmas -/

/-- First-defined choice on options (dict fallback chains). -/
def firstSome (a b : Option Value) : Option Value :=
  match a with
  | some v => some v
  | none => b

/-- The entry `to_dict` emits for one field: nothing when the resolved
value is `None`, else the name paired with the `str`-serialized value. -/
def serEntry (k : String) (v : Value) : List (String × Value) :=
  if v = vNone then [] else [(k, vStr (pyStr v))]

/-- An optional string-valued binding (used to describe instances and
round-trip results field by field). -/
def optEntryS (k : String) : Option String → List (String × Value)
  | some s => [(k, vStr s)]
  | none => []

/-- `PushoverPreset.from_dict(x.to_dict())`. -/
def roundTripPreset (x : Inst) : Except PyError Inst :=
  match presetSchema.to_dict x with
  | .ok d => presetFromDict d
  | .error e => .error e

/-- `PushoverMessage.from_dict(x.to_dict())`. -/
def roundTripMessage (x : Inst) : Except PyError Inst :=
  match messageSchema.to_dict x with
  | .ok d => messageFromDict d
  | .error e => .error e

theorem lookupA_setA_self (l : List (String × Value)) (k : String) (v : Value) :
    lookupA (setA l k v) k = some v := by
  induction l with
  | nil => simp [setA, lookupA]
  | cons hd tl ih =>
      by_cases h : hd.1 = k
      · simp [setA, lookupA, h]
      · simpa [setA, lookupA, h] using ih

theorem lookupA_setA_ne (l : List (String × Value)) (k k2 : String) (v : Value)
    (h : k ≠ k2) : lookupA (setA l k v) k2 = lookupA l k2 := by
  induction l with
  | nil => simp [setA, lookupA, h]
  | cons hd tl ih =>
      rcases hd with ⟨k1, w⟩
      by_cases h1 : k1 = k
      · subst h1
        simp [setA, lookupA, h]
      · have hset : setA ((k1, w) :: tl) k v = (k1, w) :: setA tl k v := by
          simp [setA, h1]
        rw [hset]
        by_cases h2 : k1 = k2
        · simp [lookupA, h2]
        · simp [lookupA, h2, ih]

theorem lookupA_append (a b : List (String × Value)) (k : String) :
    lookupA (a ++ b) k = firstSome (lookupA a k) (lookupA b k) := by
  induction a with
  | nil => simp [lookupA, firstSome]
  | cons hd tl ih =>
      by_cases h : hd.1 = k
      · simp [lookupA, h, firstSome]
      · simpa [lookupA, h] using ih

theorem lookupA_eq_none (l : List (String × Value)) (k : String)
    (h : k ∉ l.map Prod.fst) : lookupA l k = none := by
  induction l with
  | nil => rfl
  | cons hd tl ih =>
      rcases hd with ⟨k1, w⟩
      rw [List.map_cons, List.mem_cons] at h
      push_neg at h
      obtain ⟨h1, h2⟩ := h
      have hne : k1 ≠ k := fun e => h1 e.symm
      simp only [lookupA, if_neg hne]
      exact ih h2

theorem lookupA_of_mem (l : List (String × Value)) (kv : String × Value)
    (hnd : (l.map Prod.fst).Nodup) (h : kv ∈ l) : lookupA l kv.1 = some kv.2 := by
  induction l with
  | nil => cases h
  | cons hd tl ih =>
      simp only [List.map_cons, List.nodup_cons] at hnd
      rcases List.mem_cons.mp h with h1 | h1
      · subst h1; simp [lookupA]
      · have hne : hd.1 ≠ kv.1 := by
          intro e
          exact hnd.1 (e ▸ List.mem_map_of_mem Prod.fst h1)
        simp only [lookupA, if_neg hne]
        exact ih hnd.2 h1

theorem lookupA_updateA (es base : List (String × Value)) (k : String) :
    lookupA (updateA base es) k
      = firstSome (lookupA es.reverse k) (lookupA base k) := by
  induction es generalizing base with
  | nil => simp [updateA, lookupA, firstSome]
  | cons hd tl ih =>
      rcases hd with ⟨k1, v1⟩
      rw [updateA, ih (setA base k1 v1), List.reverse_cons, lookupA_append]
      by_cases h : k1 = k
      · subst h
        rw [lookupA_setA_self]
        cases htl : lookupA tl.reverse k1 <;> simp [htl, firstSome, lookupA]
      · rw [lookupA_setA_ne _ _ _ _ h]
        cases htl : lookupA tl.reverse k <;> simp [htl, firstSome, lookupA, h]

/-- Keys emitted by `to_dict` come from the field list it walks. -/
theorem toDictGo_keys (sc : Schema) (inst : Inst)
    (fl : List (String × PushoverOption)) (d : List (String × Value))
    (h : sc.toDictGo inst fl = .ok d) :
    ∀ k, k ∈ d.map Prod.fst → k ∈ fl.map Prod.fst := by
  induction fl generalizing d with
  | nil =>
      simp only [Schema.toDictGo] at h
      cases h
      simp
  | cons hd tl ih =>
      rcases hd with ⟨k1, o1⟩
      rw [Schema.toDictGo] at h
      split at h
      · intro k hk
        exact List.mem_cons_of_mem _ (ih d h k hk)
      · split at h
        · rename_i f hser
          split at h
          · rename_i w hf
            split at h
            · rename_i d2 htl
              cases h
              intro k hk
              rw [List.map_cons, List.mem_cons] at hk
              rcases hk with h1 | h1
              · simp [h1]
              · exact List.mem_cons_of_mem _ (ih d2 htl k h1)
            · cases h
          · cases h
        · split at h
          · rename_i d2 htl
            cases h
            intro k hk
            rw [List.map_cons, List.mem_cons] at hk
            rcases hk with h1 | h1
            · simp [h1]
            · exact List.mem_cons_of_mem _ (ih d2 htl k h1)
          · cases h

theorem digitChar_isDigit (d : Nat) (h : d < 10) :
    (Nat.digitChar d).isDigit = true := by
  interval_cases d <;> decide

theorem natDecimalGo_head (fuel : Nat) :
    ∀ n, n < 10 ^ (fuel + 1) →
      ∃ c cs, natDecimalGo (fuel + 1) n = c :: cs ∧ c.isDigit = true := by
  induction fuel with
  | zero =>
      intro n hn
      have h : n < 10 := by simpa using hn
      exact ⟨Nat.digitChar n, [], by rw [natDecimalGo, if_pos h],
        digitChar_isDigit n h⟩
  | succ fuel ih =>
      intro n hn
      by_cases h : n < 10
      · exact ⟨Nat.digitChar n, [], by rw [natDecimalGo, if_pos h],
          digitChar_isDigit n h⟩
      · have hdiv : n / 10 < 10 ^ (fuel + 1) := by
          rw [Nat.div_lt_iff_lt_mul (by omega)]
          calc n < 10 ^ (fuel + 1 + 1) := hn
            _ = 10 ^ (fuel + 1) * 10 := by ring
        obtain ⟨c, cs, hcs, hc⟩ := ih (n / 10) hdiv
        refine ⟨c, cs ++ [Nat.digitChar (n % 10)], ?_, hc⟩
        rw [natDecimalGo, if_neg h, hcs]
        rfl

theorem natDecimalAux_head (n : Nat) :
    ∃ c cs, natDecimalAux n = c :: cs ∧ c.isDigit = true := by
  have hfuel : n < 10 ^ (n + 1) := by
    calc n < 2 ^ n := Nat.lt_two_pow n
      _ ≤ 10 ^ n := Nat.pow_le_pow_left (by omega) n
      _ ≤ 10 ^ (n + 1) := Nat.pow_le_pow_right (by omega) (by omega)
  exact natDecimalGo_head n n hfuel

theorem string_data_append (a b : String) : (a ++ b).data = a.data ++ b.data :=
  rfl

theorem intDecimal_head (n : Int) :
    ∃ c cs, (intDecimal n).data = c :: cs ∧ (c.isDigit = true ∨ c = '-') := by
  cases n with
  | ofNat m =>
      obtain ⟨c, cs, hcs, hc⟩ := natDecimalAux_head m
      exact ⟨c, cs, by simp [intDecimal, hcs], Or.inl hc⟩
  | negSucc m =>
      obtain ⟨c, cs, hcs, _⟩ := natDecimalAux_head (m + 1)
      exact ⟨'-', c :: cs,
        by simp [intDecimal, string_data_append, hcs], Or.inr rfl⟩

theorem strToPriority_eq_some {s : String} {p : Priority}
    (h : strToPriority s = some p) : s = p.strval := by
  have h2 := List.find?_some h
  exact (eq_of_beq h2).symm

theorem strToPriority_strval (p : Priority) : strToPriority p.strval = some p := by
  cases p <;> rfl

theorem intToPriority_eq_some {n : Int} {p : Priority}
    (h : intToPriority n = some p) : p.intval = n := by
  have h2 := List.find?_some h
  exact eq_of_beq h2

theorem intToPriority_intval (p : Priority) : intToPriority p.intval = some p := by
  cases p <;> rfl

theorem strToPriority_intDecimal (n : Int) : strToPriority (intDecimal n) = none := by
  cases hfind : strToPriority (intDecimal n) with
  | none => rfl
  | some p =>
      exfalso
      have hs := strToPriority_eq_some hfind
      obtain ⟨c, cs, hcs, hc⟩ := intDecimal_head n
      rw [hs] at hcs
      have hhead := congrArg (fun l => l.headI) hcs
      cases p <;> simp [Priority.strval] at hhead <;> subst hhead <;>
        rcases hc with hc | hc <;> exact absurd hc (by decide)

theorem strToPriority_datetime (e : Int) :
    strToPriority ("datetime " ++ intDecimal e) = none := by
  cases hfind : strToPriority ("datetime " ++ intDecimal e) with
  | none => rfl
  | some p =>
      exfalso
      have hs := strToPriority_eq_some hfind
      have hhead : ("datetime " ++ intDecimal e).data.headI = p.strval.data.headI :=
        congrArg (fun s => s.data.headI) hs
      have hd : ("datetime " ++ intDecimal e).data.headI = 'd' := rfl
      rw [hd] at hhead
      cases p <;> exact absurd hhead (by decide)

theorem pyIntParse_strval (p : Priority) : pyIntParse p.strval = none := by
  cases p <;> decide

/-- A successful `get_priority` always returns a `PushoverPriority`. -/
theorem get_priority_ok_vPrio {v w : Value} (h : get_priority v = .ok w) :
    ∃ p, w = vPrio p := by
  cases v <;> simp only [get_priority] at h <;>
    (try split at h) <;> (try split at h) <;> (try split at h) <;>
    (cases h <;> exact ⟨_, rfl⟩)

/-- A failing `get_priority` always reports an invalid priority. -/
theorem get_priority_error {v : Value} {e : PyError}
    (h : get_priority v = .error e) : e = .valueError "invalid priority" := by
  cases v <;> simp only [get_priority] at h <;>
    (try split at h) <;> (try split at h) <;> (try split at h) <;>
    (cases h <;> rfl)

theorem get_priority_idem (p : Priority) :
    get_priority (vPrio p) = .ok (vPrio p) := rfl

/-- Full classification of successful priority deserialization. -/
theorem get_priority_ok_iff (v : Value) (q : Priority) :
    get_priority v = .ok (vPrio q) ↔
      (v = vPrio q ∨ v = vInt q.intval ∨
       ∃ s, v = vStr s ∧ (s = q.strval ∨ pyIntParse s = some q.intval)) := by
  cases v with
  | vPrio p =>
      simp only [get_priority]
      constructor
      · intro h
        exact Or.inl (by
          cases ((Except.ok.injEq _ _).mp h); rfl)
      · rintro (h | h | ⟨s, h, _⟩) <;> first | (cases h; rfl) | cases h
  | vNone =>
      simp only [get_priority]
      have h1 : strToPriority (pyStr vNone) = none := by decide
      rw [h1]
      simp only [pyInt]
      constructor
      · intro h; cases h
      · rintro (h | h | ⟨s, h, _⟩) <;> cases h
  | vDatetime e =>
      simp only [get_priority, pyStr]
      rw [strToPriority_datetime e]
      simp only [pyInt]
      constructor
      · intro h; cases h
      · rintro (h | h | ⟨s, h, _⟩) <;> cases h
  | vInt n =>
      simp only [get_priority, pyStr]
      rw [strToPriority_intDecimal n]
      simp only [pyInt]
      constructor
      · intro h
        refine Or.inr (Or.inl ?_)
        cases hint : intToPriority n with
        | none => rw [hint] at h; cases h
        | some p =>
            rw [hint] at h
            cases ((Except.ok.injEq _ _).mp h)
            have := intToPriority_eq_some hint
            rw [this]
      · rintro (h | h | ⟨s, h, _⟩)
        · cases h
        · cases h
          rw [intToPriority_intval q]
        · cases h
  | vStr s =>
      simp only [get_priority, pyStr]
      cases hstr : strToPriority s with
      | some p =>
          constructor
          · intro h
            cases ((Except.ok.injEq _ _).mp h)
            exact Or.inr (Or.inr ⟨s, rfl, Or.inl (strToPriority_eq_some hstr)⟩)
          · rintro (h | h | ⟨s2, h, hrep⟩)
            · cases h
            · cases h
            · cases h
              rcases hrep with hrep | hrep
              · rw [hrep, strToPriority_strval q] at hstr
                cases ((Option.some.injEq _ _).mp hstr)
                rfl
              · have hsv := strToPriority_eq_some hstr
                rw [hsv, pyIntParse_strval p] at hrep
                cases hrep
      | none =>
          simp only [pyInt]
          cases hparse : pyIntParse s with
          | none =>
              constructor
              · intro h; cases h
              · rintro (h | h | ⟨s2, h, hrep⟩)
                · cases h
                · cases h
                · cases h
                  rcases hrep with hrep | hrep
                  · rw [hrep, strToPriority_strval q] at hstr; cases hstr
                  · rw [hparse] at hrep; cases hrep
          | some n =>
              constructor
              · intro h
                dsimp only at h
                refine Or.inr (Or.inr ⟨s, rfl, Or.inr ?_⟩)
                cases hint : intToPriority n with
                | none => rw [hint] at h; cases h
                | some p =>
                    rw [hint] at h
                    cases ((Except.ok.injEq _ _).mp h)
                    rw [hparse, intToPriority_eq_some hint]
              · rintro (h | h | ⟨s2, h, hrep⟩)
                · cases h
                · cases h
                · cases h
                  rcases hrep with hrep | hrep
                  · rw [hrep, strToPriority_strval q] at hstr; cases hstr
                  · rw [hparse] at hrep
                    cases ((Option.some.injEq _ _).mp hrep)
                    dsimp only
                    rw [intToPriority_intval q]

/-- Keywords accepted by the constructor loop are always schema fields. -/
theorem initFrom_ok_contains (sc : Schema) :
    ∀ (kwargs : List (String × Value)) (inst inst2 : Inst),
      sc.initFrom inst kwargs = .ok inst2 →
      ∀ kv ∈ kwargs, sc.fieldNames.contains kv.1 = true := by
  intro kwargs
  induction kwargs with
  | nil => intro _ _ _ kv hkv; cases hkv
  | cons hd tl ih =>
      intro inst inst2 h kv hkv
      rcases hd with ⟨k1, v1⟩
      rw [Schema.initFrom] at h
      split at h
      · rename_i hc
        rcases List.mem_cons.mp hkv with h1 | h1
        · subst h1; exact hc
        · split at h
          · rename_i inst3 hset
            exact ih inst3 inst2 h kv h1
          · cases h
      · cases h

/-! ### Theorems for the claims -/

/-- C10: for every PushoverMessage the resolved priority field is always
one of the five PushoverPriority values: a fresh instance resolves it to
the normal level, `get_priority` only ever returns one of the five levels,
it is idempotent on an already-valid priority, and every successful
descriptor assignment to `priority` stores the level `get_priority`
produced. -/
theorem priority_field_invariant :
    messageSchema.getattr ⟨[]⟩ "priority" = vPrio .normal
    ∧ (∀ v w, get_priority v = .ok w → ∃ p, w = vPrio p)
    ∧ (∀ p, get_priority (vPrio p) = .ok (vPrio p))
    ∧ (∀ inst v inst2, messageSchema.setattr inst "priority" v = .ok inst2 →
        ∃ p, get_priority v = .ok (vPrio p)
          ∧ messageSchema.getattr inst2 "priority" = vPrio p) := by
  refine ⟨rfl, fun v w h => get_priority_ok_vPrio h, fun p => rfl, ?_⟩
  intro inst v inst2 h
  have hopt : messageSchema.getOption "priority"
      = some ⟨vPrio .normal, true, some serPriorityFn, some get_priority⟩ := rfl
  rw [Schema.setattr, hopt] at h
  dsimp only at h
  cases hg : get_priority v with
  | error e => rw [hg] at h; simp [Except.map] at h
  | ok w =>
      rw [hg] at h
      simp only [Except.map] at h
      cases h
      obtain ⟨p, hp⟩ := get_priority_ok_vPrio hg
      subst hp
      refine ⟨p, rfl, ?_⟩
      rw [Schema.getattr, lookupA_setA_self]

/-- Witness for C10 at a concrete assignment: setting the priority field
to the string 2 stores the emergency level. -/
theorem priority_field_invariant_witness :
    ∃ p, get_priority (vStr "2") = .ok (vPrio p)
      ∧ messageSchema.getattr ⟨[("priority", vPrio .emergency)]⟩ "priority"
          = vPrio p :=
  priority_field_invariant.2.2.2 ⟨[]⟩ (vStr "2")
    ⟨[("priority", vPrio .emergency)]⟩ rfl

/-- C3 counterexample: the string consisting of a space and the digit 1 is
none of the ten canonical representations (five integer codes, five
symbolic names — with the codes-as-strings "-2".."2" also distinct from
it), yet `get_priority` deserializes it successfully instead of failing
with an invalid-value error, because Python's `int()` strips whitespace. -/
theorem get_priority_counterexample :
    get_priority (vStr " 1") = .ok (vPrio .high)
    ∧ (vStr " 1") ∉ ([vInt (-2), vInt (-1), vInt 0, vInt 1, vInt 2,
        vStr "lowest", vStr "low", vStr "normal", vStr "high",
        vStr "emergency", vStr "-2", vStr "-1", vStr "0", vStr "1",
        vStr "2"] : List Value) :=
  ⟨rfl, by decide⟩

/-- C3 amended: the five levels map bijectively onto the integer codes and
the symbolic names, deserializing any of those (also the code written as
its canonical decimal string) returns the corresponding level and
serializing a level returns its code; and a value deserializes
successfully exactly when it is a priority value itself, one of the five
codes, one of the five names, or a string Python's `int()` parses to one
of the codes (which also admits non-canonical spellings such as &quot; 1&quot;,
&quot;+1&quot; or &quot;01&quot;); every other value fails with the
invalid-priority error. -/
theorem get_priority_bijection :
    (∀ p : Priority,
        get_priority (vInt p.intval) = .ok (vPrio p)
        ∧ get_priority (vStr p.strval) = .ok (vPrio p)
        ∧ get_priority (vStr (intDecimal p.intval)) = .ok (vPrio p)
        ∧ serPriorityFn (vPrio p) = .ok (vInt p.intval))
    ∧ (∀ v q, get_priority v = .ok (vPrio q) ↔
        (v = vPrio q ∨ v = vInt q.intval ∨
         ∃ s, v = vStr s ∧ (s = q.strval ∨ pyIntParse s = some q.intval)))
    ∧ (∀ v, (∃ q, get_priority v = .ok (vPrio q))
        ∨ get_priority v = .error (.valueError "invalid priority")) := by
  refine ⟨?_, get_priority_ok_iff, ?_⟩
  · intro p
    cases p <;> exact ⟨rfl, rfl, rfl, rfl⟩
  · intro v
    cases hg : get_priority v with
    | ok w =>
        obtain ⟨p, hp⟩ := get_priority_ok_vPrio hg
        exact Or.inl ⟨p, by rw [← hp]⟩
    | error e =>
        right
        rw [get_priority_error hg]

/-- Witness for C3 at a concrete input: the emergency level is returned
for the string 2 via the classification. -/
theorem get_priority_bijection_witness :
    get_priority (vStr "2") = .ok (vPrio .emergency) :=
  (get_priority_bijection.2.1 (vStr "2") .emergency).mpr
    (Or.inr (Or.inr ⟨"2", rfl, Or.inr (by decide)⟩))

/-- C4 (code bug): `get_timestamp` raises NameError on every input when
run under Python 3 — the package imports http.client and urllib.parse, so
Python 3 is its runtime, and the Python-2-only names basestring and long
are undefined — instead of deserializing integer epochs and datetimes;
moreover, even under the Python 2 semantics it was written for, it stores
an epoch STRING, and the timestamp serializer then raises AttributeError
because a string has no strftime method, so serialization could never
yield the promised value either. -/
theorem get_timestamp_code_behavior :
    get_timestamp (vInt 1000) = .error (.nameError "basestring")
    ∧ get_timestamp (vDatetime 1000) = .error (.nameError "basestring")
    ∧ (∀ v, get_timestamp v = .error (.nameError "basestring"))
    ∧ get_timestamp_py2 (vInt 1000) = .ok (vStr "1000")
    ∧ serTimestampFn (vStr "1000") = .error (.attributeError "strftime") :=
  ⟨rfl, rfl, fun _ => rfl, rfl, rfl⟩

/-- C8: constructing a Preset or a Message with a keyword whose name is
not a declared schema field fails at that keyword with a TypeError, and a
construction that returns an instance accepted only declared names. -/
theorem unknown_field_rejected :
    (∀ k, presetSchema.fieldNames.contains k = false →
      ∀ v rest, presetNew ((k, v) :: rest)
        = .error (.typeError ("unexpected keyword argument " ++ k)))
    ∧ (∀ m k, messageSchema.fieldNames.contains k = false →
      ∀ v rest, messageNew m ((k, v) :: rest)
        = .error (.typeError ("unexpected keyword argument " ++ k)))
    ∧ (∀ kwargs inst, presetNew kwargs = .ok inst →
        ∀ kv ∈ kwargs, presetSchema.fieldNames.contains kv.1 = true)
    ∧ (∀ m kwargs inst, messageNew m kwargs = .ok inst →
        ∀ kv ∈ kwargs, messageSchema.fieldNames.contains kv.1 = true) := by
  refine ⟨?_, ?_, ?_, ?_⟩
  · intro k hk v rest
    rw [presetNew, Schema.new, Schema.initFrom, hk]
    rfl
  · intro m k hk v rest
    have hstep : messageNew m ((k, v) :: rest)
        = messageSchema.initFrom ⟨[("message", m)]⟩ ((k, v) :: rest) := rfl
    rw [hstep, Schema.initFrom, hk]
    rfl
  · intro kwargs inst h
    exact initFrom_ok_contains presetSchema kwargs ⟨[]⟩ inst h
  · intro m kwargs inst h
    have hstep : messageNew m kwargs
        = messageSchema.initFrom ⟨[("message", m)]⟩ kwargs := rfl
    rw [hstep] at h
    exact initFrom_ok_contains messageSchema kwargs ⟨[("message", m)]⟩ inst h

/-- Witness for C8 at a concrete undeclared name. -/
theorem unknown_field_rejected_witness :
    presetNew [("foo", vStr "bar")]
      = .error (.typeError ("unexpected keyword argument " ++ "foo")) :=
  unknown_field_rejected.1 "foo" (by decide) (vStr "bar") []

/-- C9 counterexample: two empty tokens join to a single space, which is
empty after trimming (it is all whitespace — `stripChars` of its
characters is empty), yet `_get_message` succeeds and produces a message
whose body is that space, instead of failing with the empty-message
error. -/
theorem get_message_counterexample :
    getMessage ["", ""] none none none none = .ok ⟨[("message", vStr " ")]⟩
    ∧ joinTokens ["", ""] = " "
    ∧ stripChars (joinTokens ["", ""]).data = [] :=
  ⟨rfl, rfl, by decide⟩

/-- C9 amended: message construction from tokens fails with the
empty-message error exactly when the space-join of the tokens is the
empty string (the token list is empty or a lone empty token); no trimming
is applied, and otherwise it produces a message whose body is the
untrimmed join. -/
theorem get_message_empty_join (tokens : List String) :
    (joinTokens tokens = "" →
      getMessage tokens none none none none
        = .error (.valueError "no message to send"))
    ∧ (joinTokens tokens ≠ "" →
      getMessage tokens none none none none
        = .ok ⟨[("message", vStr (joinTokens tokens))]⟩) := by
  constructor
  · intro h
    simp only [getMessage, h]
    rfl
  · intro h
    have hne : (joinTokens tokens).isEmpty = false := by
      cases he : (joinTokens tokens).isEmpty
      · rfl
      · exact absurd ((String.isEmpty_iff _).mp he) h
    simp only [getMessage, hne]
    rfl

/-- Witness for C9 at a concrete nonempty token list. -/
theorem get_message_empty_join_witness :
    getMessage ["hi"] none none none none
      = .ok ⟨[("message", vStr (joinTokens ["hi"]))]⟩ :=
  (get_message_empty_join ["hi"]).2 (by decide)

/-- `validate` succeeds exactly when every required field is truthy. -/
theorem validateGo_ok_iff (sc : Schema) (inst : Inst)
    (fl : List (String × PushoverOption)) :
    sc.validateGo inst fl = .ok () ↔
      fl.all (fun kv => !kv.2.required || (sc.getattr inst kv.1).truthy)
        = true := by
  induction fl with
  | nil => simp [Schema.validateGo]
  | cons hd tl ih =>
      rcases hd with ⟨k1, o1⟩
      rw [Schema.validateGo]
      cases hr : o1.required <;>
        cases ht : (sc.getattr inst k1).truthy <;>
          simp [hr, ht, List.all_cons, ih]

/-- When `validate` fails, the error names the first required field whose
resolved value is falsy, in `list_options` order. -/
theorem validateGo_error (sc : Schema) (inst : Inst)
    (fl : List (String × PushoverOption)) (e : PyError)
    (h : sc.validateGo inst fl = .error e) :
    ∃ kv, fl.find?
        (fun kv => kv.2.required && !(sc.getattr inst kv.1).truthy) = some kv
      ∧ e = .valueError ("Empty required value " ++ kv.1) := by
  induction fl with
  | nil => cases h
  | cons hd tl ih =>
      rcases hd with ⟨k1, o1⟩
      rw [Schema.validateGo] at h
      cases hr : o1.required <;>
        cases ht : (sc.getattr inst k1).truthy <;>
          rw [hr, ht] at h <;> simp only [Bool.and_self, Bool.not_true,
            Bool.not_false, Bool.and_true, Bool.and_false, Bool.true_and,
            Bool.false_and, if_true, if_false] at h
      · obtain ⟨kv, hkv, he⟩ := ih h
        exact ⟨kv, by rw [List.find?]; simp [hr, ht, hkv], he⟩
      · obtain ⟨kv, hkv, he⟩ := ih h
        exact ⟨kv, by rw [List.find?]; simp [hr, ht, hkv], he⟩
      · cases h
        exact ⟨(k1, o1), by rw [List.find?]; simp [hr, ht], rfl⟩
      · obtain ⟨kv, hkv, he⟩ := ih h
        exact ⟨kv, by rw [List.find?]; simp [hr, ht, hkv], he⟩

/-- C1 amended: `validate` is a read-only check that succeeds exactly when
every required field resolves to a truthy value, and on failure it raises
a ValueError naming ONLY the first required field (in `list_options`
order) whose resolved value is unset or empty — not the complete set of
offending fields. -/
theorem validate_first_empty_required (sc : Schema) (inst : Inst) :
    (sc.validate inst = .ok () ↔
      sc.fields.all (fun kv => !kv.2.required || (sc.getattr inst kv.1).truthy)
        = true)
    ∧ (∀ e, sc.validate inst = .error e →
        ∃ kv, sc.fields.find?
            (fun kv => kv.2.required && !(sc.getattr inst kv.1).truthy)
            = some kv
          ∧ e = .valueError ("Empty required value " ++ kv.1)) :=
  ⟨validateGo_ok_iff sc inst sc.fields,
   fun e h => validateGo_error sc inst sc.fields e h⟩

/-- Witness for C1 amended: on an empty Preset the failure names api_user,
the first required-and-empty field. -/
theorem validate_first_empty_required_witness :
    ∃ kv, presetSchema.fields.find?
        (fun kv => kv.2.required && !(presetSchema.getattr ⟨[]⟩ kv.1).truthy)
        = some kv
      ∧ PyError.valueError "Empty required value api_user"
          = .valueError ("Empty required value " ++ kv.1) :=
  (validate_first_empty_required presetSchema ⟨[]⟩).2
    (.valueError "Empty required value api_user") rfl

/-- C1 counterexample: in an empty Preset both api_user and api_token are
required and resolve to falsy values, yet `validate` raises an error whose
message names only api_user — it halts at the first offending field
instead of reporting the complete set. -/
theorem validate_counterexample :
    presetSchema.validate ⟨[]⟩
      = .error (.valueError "Empty required value api_user")
    ∧ presetSchema.isRequired "api_user" = true
    ∧ (presetSchema.getattr ⟨[]⟩ "api_user").truthy = false
    ∧ presetSchema.isRequired "api_token" = true
    ∧ (presetSchema.getattr ⟨[]⟩ "api_token").truthy = false :=
  ⟨rfl, rfl, rfl, rfl, rfl⟩

/-- A schema lookup that succeeds returns a descriptor of the schema. -/
theorem getOption_mem {sc : Schema} {k : String} {o : PushoverOption}
    (h : sc.getOption k = some o) :
    ∃ kv, kv ∈ sc.fields ∧ kv.1 = k ∧ kv.2 = o := by
  rw [Schema.getOption] at h
  cases hf : sc.fields.find? (fun kv => kv.1 == k) with
  | none => rw [hf] at h; cases h
  | some kv =>
      rw [hf] at h
      cases h
      have hp := List.find?_some hf
      exact ⟨kv, List.mem_of_find?_eq_some hf, eq_of_beq hp, rfl⟩

/-- No Preset field has a deserializer. -/
theorem presetOption_no_deserialize {k : String} {o : PushoverOption}
    (h : presetSchema.getOption k = some o) : o.deserialize = none := by
  obtain ⟨kv, hmem, _, rfl⟩ := getOption_mem h
  simp only [presetSchema, List.mem_cons, List.mem_singleton,
    List.not_mem_nil, or_false] at hmem
  rcases hmem with rfl | rfl | rfl | rfl <;> rfl

/-- A name the schema contains has a descriptor. -/
theorem getOption_isSome_of_contains {sc : Schema} {k : String}
    (h : sc.fieldNames.contains k = true) : ∃ o, sc.getOption k = some o := by
  rw [Schema.fieldNames] at h
  rw [List.contains_eq_any_beq] at h
  rw [List.any_eq_true] at h
  obtain ⟨k2, hk2, hbeq⟩ := h
  obtain ⟨kv, hkv, rfl⟩ := List.mem_map.mp hk2
  have : sc.fields.find? (fun kv2 => kv2.1 == kv.1) ≠ none := by
    intro hnone
    have := List.find?_eq_none.mp hnone kv hkv
    simp at this
  cases hf : sc.fields.find? (fun kv2 => kv2.1 == kv.1) with
  | none => exact absurd hf this
  | some kv2 =>
      refine ⟨kv2.2, ?_⟩
      have hk : k = kv.1 := eq_of_beq hbeq
      subst hk
      rw [Schema.getOption, hf]

/-- Preset `setattr` always stores verbatim (no deserializer exists). -/
theorem presetSetattr_ok (inst : Inst) (k : String) (v : Value)
    (h : presetSchema.fieldNames.contains k = true) :
    presetSchema.setattr inst k v = .ok ⟨setA inst.attrs k v⟩ := by
  obtain ⟨o, ho⟩ := getOption_isSome_of_contains h
  rw [Schema.setattr, ho]
  dsimp only
  rw [presetOption_no_deserialize ho]

/-- Preset construction either succeeds or raises a TypeError (an unknown
keyword); in particular it never raises a ValueError. -/
theorem presetInitFrom_classify (kwargs : List (String × Value)) :
    ∀ inst, (∃ i, presetSchema.initFrom inst kwargs = .ok i)
      ∨ ∃ k, presetSchema.initFrom inst kwargs
          = .error (.typeError ("unexpected keyword argument " ++ k)) := by
  induction kwargs with
  | nil => intro inst; exact Or.inl ⟨inst, rfl⟩
  | cons hd tl ih =>
      intro inst
      rcases hd with ⟨k1, v1⟩
      cases hc : presetSchema.fieldNames.contains k1 with
      | false =>
          refine Or.inr ⟨k1, ?_⟩
          rw [Schema.initFrom, hc]
          rfl
      | true =>
          have hset := presetSetattr_ok inst k1 v1 hc
          rcases ih ⟨setA inst.attrs k1 v1⟩ with ⟨i, hi⟩ | ⟨k, hk⟩
          · refine Or.inl ⟨i, ?_⟩
            rw [Schema.initFrom, hc, hset]
            exact hi
          · refine Or.inr ⟨k, ?_⟩
            rw [Schema.initFrom, hc, hset]
            exact hk

/-- Preset `from_dict` applies no transforms: `buildArgs` is the
identity. -/
theorem presetBuildArgs_id (data : List (String × Value)) :
    presetSchema.buildArgs data = .ok data := by
  induction data with
  | nil => rfl
  | cons hd tl ih =>
      rcases hd with ⟨k, v⟩
      rw [Schema.buildArgs]
      have hstep : (match presetSchema.getOption k with
          | some o =>
              match o.deserialize with
              | some f => f v
              | none => Except.ok v
          | none => Except.ok v) = Except.ok v := by
        cases ho : presetSchema.getOption k with
        | none => rfl
        | some o =>
            dsimp only
            rw [presetOption_no_deserialize ho]
      rw [hstep, ih]

/-- `PushoverPreset.from_dict` never raises a ValueError. -/
theorem presetFromDict_no_valueError (data : List (String × Value))
    (s : String) : presetFromDict data ≠ .error (.valueError s) := by
  rw [presetFromDict, presetBuildArgs_id]
  dsimp only
  show presetSchema.initFrom ⟨[]⟩ data ≠ Except.error (.valueError s)
  rcases presetInitFrom_classify data ⟨[]⟩ with ⟨i, hi⟩ | ⟨k, hk⟩
  · rw [hi]; intro h; cases h
  · rw [hk]; intro h; cases h

/-- C7: `get_preset` raises its lookup ValueError exactly when a name is
given that is not a section of the store (all other failures are
TypeErrors from unknown raw keys); with no name it never raises a
ValueError and simply deserializes the default section verbatim into a
Preset. -/
theorem get_preset_lookup_error :
    (∀ (cfg : PushoverConfig) (n : String),
      (∃ s, cfg.get_preset (some n) = .error (.valueError s))
        ↔ lookupSection cfg.sections n = none)
    ∧ (∀ (cfg : PushoverConfig) (s : String),
        cfg.get_preset none ≠ .error (.valueError s))
    ∧ (∀ (u a t d : Value)
         (sections : List (String × List (String × Value))),
        PushoverConfig.get_preset
          ⟨[("api_url", u), ("api_user", a), ("api_token", t),
            ("api_device", d)], sections⟩ none
        = .ok ⟨[("api_url", u), ("api_user", a), ("api_token", t),
            ("api_device", d)]⟩) := by
  refine ⟨?_, ?_, ?_⟩
  · intro cfg n
    constructor
    · rintro ⟨s, hs⟩
      cases hsec : lookupSection cfg.sections n with
      | none => rfl
      | some sec =>
          exfalso
          rw [PushoverConfig.get_preset, hsec] at hs
          exact presetFromDict_no_valueError _ s hs
    · intro hsec
      refine ⟨"No preset " ++ n, ?_⟩
      rw [PushoverConfig.get_preset, hsec]
  · intro cfg s
    rw [PushoverConfig.get_preset]
    exact presetFromDict_no_valueError _ s
  · intro u a t d sections
    rfl

/-- Witness for C7: a missing name yields the lookup error on an empty
store. -/
theorem get_preset_lookup_error_witness :
    ∃ s, PushoverConfig.get_preset ⟨[], []⟩ (some "missing")
      = .error (.valueError s) :=
  (get_preset_lookup_error.1 ⟨[], []⟩ "missing").mpr rfl

theorem filter_map_fst (s : List (String × Value)) (p : String → Bool) :
    (s.map Prod.fst).filter p = (s.filter (fun kv => p kv.1)).map Prod.fst := by
  induction s with
  | nil => rfl
  | cons hd tl ih =>
      rw [List.map_cons, List.filter_cons, List.filter_cons]
      cases hp : p hd.1 <;> simp [hp, ih]

/-- The raw map `get_preset` reads out of the config parser (its merged
`options` / `get` view of a section) is exactly the overlay of the section
on the default section. -/
theorem cpMerge_eq_overlay (d s : List (String × Value))
    (hd : (d.map Prod.fst).Nodup) (hs : (s.map Prod.fst).Nodup) :
    (cpOptions d s).map (fun k => (k, cpGet d s k)) = overlay d s := by
  rw [cpOptions, overlay, List.map_append]
  congr 1
  · rw [List.map_map]
    apply List.map_congr_left
    intro kv hkv
    simp only [Function.comp_apply]
    rw [cpGet]
    cases hls : lookupA s kv.1 with
    | some v => rfl
    | none => rw [lookupA_of_mem d kv hd hkv]
  · rw [filter_map_fst, List.map_map]
    have hpt : ∀ kv ∈ s.filter (fun kv => !(d.map Prod.fst).contains kv.1),
        ((fun k => (k, cpGet d s k)) ∘ Prod.fst) kv = kv := by
      intro kv hkv
      have hmem : kv ∈ s := List.mem_of_mem_filter hkv
      simp only [Function.comp_apply]
      rw [cpGet, lookupA_of_mem s kv hs hmem]
    exact (List.map_congr_left hpt).trans (List.map_id _)

/-- C6: for a store with a section of the requested name, `get_preset`
deserializes — in one `from_dict` pass — exactly the raw map obtained by
overlaying the named section's raw values on the default section's raw
values; and the store's default section is seeded with the schema
defaults at construction. -/
theorem get_preset_layered_merge :
    (∀ (defaults : List (String × Value))
       (sections : List (String × List (String × Value)))
       (n : String) (sec : List (String × Value)),
      (defaults.map Prod.fst).Nodup → (sec.map Prod.fst).Nodup →
      lookupSection sections n = some sec →
      PushoverConfig.get_preset ⟨defaults, sections⟩ (some n)
        = presetFromDict (overlay defaults sec))
    ∧ mkPushoverConfig.defaults = presetSchema.get_defaults := by
  refine ⟨?_, rfl⟩
  intro defaults sections n sec hd hs hsec
  rw [PushoverConfig.get_preset]
  dsimp only
  rw [hsec]
  dsimp only
  rw [cpMerge_eq_overlay defaults sec hd hs]

/-- Witness for C6 at a concrete store. -/
theorem get_preset_layered_merge_witness :
    PushoverConfig.get_preset
        ⟨[("api_url", vStr "U")], [("work", [("api_user", vStr "x")])]⟩
        (some "work")
      = presetFromDict
          (overlay [("api_url", vStr "U")] [("api_user", vStr "x")]) :=
  get_preset_layered_merge.1 [("api_url", vStr "U")]
    [("work", [("api_user", vStr "x")])] "work" [("api_user", vStr "x")]
    (by decide) (by decide) rfl

/-- `to_dict` of a Preset instance, field by field: every serializer is
`str`, which never fails, and a field is emitted exactly when its resolved
value is not `None`. -/
theorem presetToDict_eval (x : Inst) :
    presetSchema.to_dict x = .ok
      (serEntry "api_url" (presetSchema.getattr x "api_url")
       ++ serEntry "api_user" (presetSchema.getattr x "api_user")
       ++ serEntry "api_token" (presetSchema.getattr x "api_token")
       ++ serEntry "api_device" (presetSchema.getattr x "api_device")) := by
  by_cases h1 : presetSchema.getattr x "api_url" = vNone <;>
  by_cases h2 : presetSchema.getattr x "api_user" = vNone <;>
  by_cases h3 : presetSchema.getattr x "api_token" = vNone <;>
  by_cases h4 : presetSchema.getattr x "api_device" = vNone <;>
    simp [Schema.to_dict, Schema.toDictGo, serEntry, h1, h2, h3, h4, pyStrFn]

/-- `to_dict` of a Message instance whose resolved priority is a priority
value and whose timestamp is unset: the priority code is always emitted
first, the timestamp is skipped, and the string fields are emitted exactly
when non-`None`. -/
theorem messageToDict_eval (x : Inst) (p0 : Priority)
    (hp : messageSchema.getattr x "priority" = vPrio p0)
    (hts : messageSchema.getattr x "timestamp" = vNone) :
    messageSchema.to_dict x = .ok
      (("priority", vInt p0.intval) ::
        (serEntry "message" (messageSchema.getattr x "message")
         ++ serEntry "title" (messageSchema.getattr x "title")
         ++ serEntry "url" (messageSchema.getattr x "url")
         ++ serEntry "url_title" (messageSchema.getattr x "url_title"))) := by
  by_cases h2 : messageSchema.getattr x "message" = vNone <;>
  by_cases h3 : messageSchema.getattr x "title" = vNone <;>
  by_cases h4 : messageSchema.getattr x "url" = vNone <;>
  by_cases h5 : messageSchema.getattr x "url_title" = vNone <;>
    simp [Schema.to_dict, Schema.toDictGo, serEntry, hp, hts, h2, h3, h4, h5,
      pyStrFn, serPriorityFn, pyInt, Except.map]

/-- C2: for every Preset or Message instance whose explicitly set fields
hold valid values (strings for the plain string fields; one of the five
levels for priority; the timestamp field, whose deserializer cannot
succeed, unset), `from_dict(to_dict(x))` succeeds and the produced
instance resolves every explicitly set field of `x` to the same value
`x` resolves it to. -/
theorem from_dict_to_dict_roundtrip :
    (∀ (x : Inst) (url user token device : Option String),
      lookupA x.attrs "api_url" = url.map vStr →
      lookupA x.attrs "api_user" = user.map vStr →
      lookupA x.attrs "api_token" = token.map vStr →
      lookupA x.attrs "api_device" = device.map vStr →
      ∃ y, roundTripPreset x = .ok y
        ∧ ∀ k, k ∈ presetSchema.fieldNames →
            presetSchema.isSet x k = true →
            presetSchema.getattr y k = presetSchema.getattr x k)
    ∧ (∀ (x : Inst) (m : String) (title url2 urlTitle : Option String)
         (prio : Option Priority),
      lookupA x.attrs "message" = some (vStr m) →
      lookupA x.attrs "title" = title.map vStr →
      lookupA x.attrs "url" = url2.map vStr →
      lookupA x.attrs "url_title" = urlTitle.map vStr →
      lookupA x.attrs "priority" = prio.map vPrio →
      lookupA x.attrs "timestamp" = none →
      ∃ y, roundTripMessage x = .ok y
        ∧ ∀ k, k ∈ messageSchema.fieldNames →
            messageSchema.isSet x k = true →
            messageSchema.getattr y k = messageSchema.getattr x k) := by
  constructor
  · intro x url user token device h1 h2 h3 h4
    have g1 : presetSchema.getattr x "api_url"
        = (url.map vStr).getD (vStr DEFAULT_URL) := by
      rw [Schema.getattr, h1]; cases url <;> rfl
    have g2 : presetSchema.getattr x "api_user"
        = (user.map vStr).getD vNone := by
      rw [Schema.getattr, h2]; cases user <;> rfl
    have g3 : presetSchema.getattr x "api_token"
        = (token.map vStr).getD vNone := by
      rw [Schema.getattr, h3]; cases token <;> rfl
    have g4 : presetSchema.getattr x "api_device"
        = (device.map vStr).getD vNone := by
      rw [Schema.getattr, h4]; cases device <;> rfl
    refine ⟨⟨("api_url", vStr (url.getD DEFAULT_URL)) ::
      (optEntryS "api_user" user ++ optEntryS "api_token" token
        ++ optEntryS "api_device" device)⟩, ?_, ?_⟩
    · cases url <;> cases user <;> cases token <;> cases device <;>
        (rw [roundTripPreset, presetToDict_eval, g1, g2, g3, g4]; rfl)
    · intro k hk hset
      rw [Schema.isSet] at hset
      simp only [presetSchema, Schema.fieldNames, List.map_cons, List.map_nil,
        List.mem_cons, List.not_mem_nil, or_false] at hk
      rcases hk with rfl | rfl | rfl | rfl
      · cases url <;> (rw [g1]; rfl)
      · rw [h2] at hset
        cases user with
        | none => exact absurd hset (by decide)
        | some s => rw [g2]; rfl
      · rw [h3] at hset
        cases token with
        | none => exact absurd hset (by decide)
        | some s =>
            rw [g3]
            cases user <;> rfl
      · rw [h4] at hset
        cases device with
        | none => exact absurd hset (by decide)
        | some s =>
            rw [g4]
            cases user <;> cases token <;> rfl
  · intro x m title url2 urlTitle prio hm ht hu hut hpr hts
    have gm : messageSchema.getattr x "message" = vStr m := by
      rw [Schema.getattr, hm]
    have gt : messageSchema.getattr x "title"
        = (title.map vStr).getD vNone := by
      rw [Schema.getattr, ht]; cases title <;> rfl
    have gu : messageSchema.getattr x "url"
        = (url2.map vStr).getD vNone := by
      rw [Schema.getattr, hu]; cases url2 <;> rfl
    have gut : messageSchema.getattr x "url_title"
        = (urlTitle.map vStr).getD vNone := by
      rw [Schema.getattr, hut]; cases urlTitle <;> rfl
    have gp : messageSchema.getattr x "priority"
        = vPrio (prio.getD .normal) := by
      rw [Schema.getattr, hpr]; cases prio <;> rfl
    have gts : messageSchema.getattr x "timestamp" = vNone := by
      rw [Schema.getattr, hts]
      rfl
    refine ⟨⟨("message", vStr m) ::
      ("priority", vPrio (prio.getD .normal)) ::
      (optEntryS "title" title ++ optEntryS "url" url2
        ++ optEntryS "url_title" urlTitle)⟩, ?_, ?_⟩
    · cases title <;> cases url2 <;> cases urlTitle <;>
        rcases prio with _ | p <;> (try cases p) <;>
        (rw [roundTripMessage, messageToDict_eval x _ gp gts, gm, gt, gu, gut];
         rfl)
    · intro k hk hset
      rw [Schema.isSet] at hset
      simp only [messageSchema, Schema.fieldNames, List.map_cons, List.map_nil,
        List.mem_cons, List.not_mem_nil, or_false] at hk
      rcases hk with rfl | rfl | rfl | rfl | rfl | rfl
      · rw [gp] at *
        cases prio with
        | none =>
            rw [hpr] at hset
            exact absurd hset (by decide)
        | some p => rfl
      · rw [gm]; rfl
      · rw [ht] at hset
        cases title with
        | none => exact absurd hset (by decide)
        | some s => rw [gt]; rfl
      · rw [hu] at hset
        cases url2 with
        | none => exact absurd hset (by decide)
        | some s =>
            rw [gu]
            cases title <;> rfl
      · rw [hut] at hset
        cases urlTitle with
        | none => exact absurd hset (by decide)
        | some s =>
            rw [gut]
            cases title <;> cases url2 <;> rfl
      · rw [hts] at hset
        exact absurd hset (by decide)

/-- Witness for C2 at a concrete Preset and Message. -/
theorem from_dict_to_dict_roundtrip_witness :
    (∃ y, roundTripPreset ⟨[("api_user", vStr "u"), ("api_device", vStr "")]⟩
        = .ok y
      ∧ ∀ k, k ∈ presetSchema.fieldNames →
          presetSchema.isSet ⟨[("api_user", vStr "u"),
            ("api_device", vStr "")]⟩ k = true →
          presetSchema.getattr y k
            = presetSchema.getattr
                ⟨[("api_user", vStr "u"), ("api_device", vStr "")]⟩ k)
    ∧ (∃ y, roundTripMessage ⟨[("message", vStr "hi"),
          ("priority", vPrio .high)]⟩ = .ok y
      ∧ ∀ k, k ∈ messageSchema.fieldNames →
          messageSchema.isSet ⟨[("message", vStr "hi"),
            ("priority", vPrio .high)]⟩ k = true →
          messageSchema.getattr y k
            = messageSchema.getattr
                ⟨[("message", vStr "hi"), ("priority", vPrio .high)]⟩ k) :=
  ⟨from_dict_to_dict_roundtrip.1 ⟨[("api_user", vStr "u"),
      ("api_device", vStr "")]⟩ none (some "u") none (some "") rfl rfl rfl rfl,
   from_dict_to_dict_roundtrip.2 ⟨[("message", vStr "hi"),
      ("priority", vPrio .high)]⟩ "hi" none none none (some .high)
      rfl rfl rfl rfl rfl rfl⟩

theorem serEntry_reverse (k : String) (v : Value) :
    (serEntry k v).reverse = serEntry k v := by
  by_cases h : v = vNone <;> simp [serEntry, h]

theorem lookupA_serEntry (k k2 : String) (v : Value) :
    lookupA (serEntry k v) k2
      = if k = k2 then
          (if v = vNone then none else some (vStr (pyStr v)))
        else none := by
  by_cases hv : v = vNone <;> by_cases hk : k = k2 <;>
    simp [serEntry, lookupA, hv, hk]

/-- The renaming loop of `prepare` on a Preset's `to_dict` output: the
`api_url` entry is dropped and the other entries get their wire names. -/
theorem renameCfg_serEntries (a u t dv : Value) :
    renameCfg (serEntry "api_url" a ++ serEntry "api_user" u
      ++ serEntry "api_token" t ++ serEntry "api_device" dv)
    = .ok (serEntry "user" u ++ serEntry "token" t
        ++ serEntry "device" dv) := by
  by_cases h1 : a = vNone <;> by_cases h2 : u = vNone <;>
  by_cases h3 : t = vNone <;> by_cases h4 : dv = vNone <;>
    simp [serEntry, renameCfg, configParamMap, h1, h2, h3, h4, Except.map]

/-- C5 counterexample: a preset whose resolved device is the EMPTY string
(an empty, falsy value, but not None) still contributes a `device` key to
the prepared payload, contradicting the claim that `device` is present
only when the resolved device value is non-empty. -/
theorem prepare_counterexample :
    prepare ⟨[("message", vStr "hi")]⟩
        ⟨[("api_user", vStr "u"), ("api_token", vStr "t"),
          ("api_device", vStr "")]⟩
      = .ok [("priority", vInt 0), ("message", vStr "hi"),
          ("user", vStr "u"), ("token", vStr "t"), ("device", vStr "")]
    ∧ lookupA [("priority", vInt 0), ("message", vStr "hi"),
          ("user", vStr "u"), ("token", vStr "t"), ("device", vStr "")]
        "device" = some (vStr "")
    ∧ (vStr "").truthy = false :=
  ⟨rfl, rfl, rfl⟩

/-- C5 amended: the prepared payload consists of the serialized message
fields (every message field key resolves in the payload exactly as in the
message's own `to_dict`, so every non-None message field is present,
serialized) plus the preset's user, token and device values under the
wire names `user`, `token`, `device`; each of those three keys is present
exactly when the corresponding resolved preset value is not None — in
particular an empty-string device is still sent — and the preset's URL
field is never included. -/
theorem prepare_payload (msg preset : Inst) (msgd ps : List (String × Value))
    (hm : messageSchema.to_dict msg = .ok msgd)
    (hp : prepare msg preset = .ok ps) :
    (∀ k, k ∈ messageSchema.fieldNames → lookupA ps k = lookupA msgd k)
    ∧ lookupA ps "user"
        = (if presetSchema.getattr preset "api_user" = vNone then none
           else some (vStr (pyStr (presetSchema.getattr preset "api_user"))))
    ∧ lookupA ps "token"
        = (if presetSchema.getattr preset "api_token" = vNone then none
           else some (vStr (pyStr (presetSchema.getattr preset "api_token"))))
    ∧ lookupA ps "device"
        = (if presetSchema.getattr preset "api_device" = vNone then none
           else some (vStr (pyStr (presetSchema.getattr preset "api_device"))))
    ∧ lookupA ps "api_url" = none := by
  have hkeys : ∀ k, messageSchema.fieldNames.contains k = false →
      lookupA msgd k = none := by
    intro k hk
    apply lookupA_eq_none
    intro hmem
    have hin := toDictGo_keys messageSchema msg messageSchema.fields msgd
      (by rw [Schema.to_dict] at hm; exact hm) k hmem
    have htrue : messageSchema.fieldNames.contains k = true := by
      rw [Schema.fieldNames, List.contains_eq_any_beq, List.any_eq_true]
      exact ⟨k, hin, by simp⟩
    rw [hk] at htrue
    cases htrue
  have hU : lookupA msgd "user" = none := hkeys "user" (by decide)
  have hT : lookupA msgd "token" = none := hkeys "token" (by decide)
  have hD : lookupA msgd "device" = none := hkeys "device" (by decide)
  have hA : lookupA msgd "api_url" = none := hkeys "api_url" (by decide)
  rw [prepare, hm] at hp
  dsimp only at hp
  rw [presetToDict_eval] at hp
  dsimp only at hp
  rw [renameCfg_serEntries] at hp
  dsimp only at hp
  cases hp
  refine ⟨?_, ?_, ?_, ?_, ?_⟩
  · intro k hk
    simp only [messageSchema, Schema.fieldNames, List.map_cons, List.map_nil,
      List.mem_cons, List.not_mem_nil, or_false] at hk
    rcases hk with rfl | rfl | rfl | rfl | rfl | rfl <;>
      simp [lookupA_updateA, List.reverse_append, serEntry_reverse,
        lookupA_append, lookupA_serEntry, firstSome]
  · by_cases hu : presetSchema.getattr preset "api_user" = vNone <;>
      simp [lookupA_updateA, List.reverse_append, serEntry_reverse,
        lookupA_append, lookupA_serEntry, firstSome, hu, hU]
  · by_cases ht : presetSchema.getattr preset "api_token" = vNone <;>
      simp [lookupA_updateA, List.reverse_append, serEntry_reverse,
        lookupA_append, lookupA_serEntry, firstSome, ht, hT]
  · by_cases hd : presetSchema.getattr preset "api_device" = vNone <;>
      simp [lookupA_updateA, List.reverse_append, serEntry_reverse,
        lookupA_append, lookupA_serEntry, firstSome, hd, hD]
  · simp [lookupA_updateA, List.reverse_append, serEntry_reverse,
      lookupA_append, lookupA_serEntry, firstSome, hA]

/-- Witness for C5 at a concrete message and preset (device unset, so no
device key appears). -/
theorem prepare_payload_witness :
    (∀ k, k ∈ messageSchema.fieldNames →
        lookupA [("priority", vInt 0), ("message", vStr "hi"),
            ("user", vStr "u"), ("token", vStr "t")] k
          = lookupA [("priority", vInt 0), ("message", vStr "hi")] k)
    ∧ lookupA [("priority", vInt 0), ("message", vStr "hi"),
          ("user", vStr "u"), ("token", vStr "t")] "user" = some (vStr "u")
    ∧ lookupA [("priority", vInt 0), ("message", vStr "hi"),
          ("user", vStr "u"), ("token", vStr "t")] "token" = some (vStr "t")
    ∧ lookupA [("priority", vInt 0), ("message", vStr "hi"),
          ("user", vStr "u"), ("token", vStr "t")] "device" = none
    ∧ lookupA [("priority", vInt 0), ("message", vStr "hi"),
          ("user", vStr "u"), ("token", vStr "t")] "api_url" = none :=
  prepare_payload ⟨[("message", vStr "hi")]⟩
    ⟨[("api_user", vStr "u"), ("api_token", vStr "t")]⟩
    [("priority", vInt 0), ("message", vStr "hi")]
    [("priority", vInt 0), ("message", vStr "hi"),
      ("user", vStr "u"), ("token", vStr "t")] rfl rfl

end Pushover
